import Mathlib

/-!
Shallow embedding of the query cache in `src/lib/index.tsx`
(`generateQueryProvider`): a key-value store with insertion timestamps, a
listener map, and the `fetch` / `get` / `set` / `attachListener` /
`invalidateCache` operations of the returned provider object.

Modelling conventions:
  * `Map<string, {insertedAt, data}>` becomes an association list
    `Store V`; `Map.get` is the first matching binding, `Map.set`
    replaces the binding, `Map.delete` removes it.
  * Timestamps (`Date.now()`) are naturals (milliseconds).  The code
    reads the clock once per `fetch` attempt in the staleness check and
    once inside `set` on success, so the embedding takes two attempt-indexed
    clock functions `checkNow` and `succNow`.
  * The asynchronous `fetchFn` is a function `Nat → Option V` giving the
    outcome of its n-th invocation (`none` = the promise rejects,
    `some v` = it resolves with `v`).
  * The JavaScript staleness test `(now - insertedAt) / 1000 > timeout`
    is exact real division, so it is embedded as the equivalent integer
    comparison `now - insertedAt > timeout * 1000`.
  * The recursion `this.fetch(queryKey, fetchFn, opts, tries++)` passes
    the pre-increment value of `tries` (postfix `++`), so the embedding
    recurses with the same `tries`; a fuel parameter makes the possibly
    non-terminating recursion total, with `diverge` marking fuel
    exhaustion.
  * A listener callback `(e) => Promise<void>` is modelled as a labelled
    store transformer; `invalidateCache` returns the transformed state
    plus the trace of listener labels in invocation order, and `none`
    when the listener array is empty (the code would then call
    `undefined` as a function and throw a TypeError).
-/

/-- One cache entry `{ insertedAt: number; data: unknown }`. -/
structure Entry (V : Type) where
  insertedAt : Nat
  data : V
deriving DecidableEq, Repr

/-- The cache map `Map<string, { insertedAt, data }>` as an association list. -/
abbrev Store (V : Type) := List (String × Entry V)

namespace Store

/-- `map.get(queryKey)`: first binding for the key, if any. -/
def get (s : Store V) (k : String) : Option (Entry V) :=
  match s with
  | [] => none
  | (k2, e) :: t => if k2 = k then some e else get t k

/-- `map.delete(queryKey)`: drop every binding for the key. -/
def delete (s : Store V) (k : String) : Store V :=
  match s with
  | [] => []
  | (k2, e) :: t => if k2 = k then delete t k else (k2, e) :: delete t k

/-- `map.set(queryKey, { data, insertedAt })`: replace any binding for the key. -/
def setE (s : Store V) (k : String) (e : Entry V) : Store V :=
  (k, e) :: delete s k

end Store

/-- A listener callback attached with `attachListener`: a label (to record
invocation order) together with the effect its `refetch` handler has on the
cache map. -/
structure Callback (V : Type) where
  id : Nat
  effect : Store V → Store V

/-- The listeners map `Map<string, callback[]>` as an association list. -/
abbrev ListenerMap (V : Type) := List (String × List (Callback V))

/-- Lookup in an association list (`Map.get`). -/
def alookup (l : List (String × α)) (k : String) : Option α :=
  match l with
  | [] => none
  | (k2, v) :: t => if k2 = k then some v else alookup t k

/-- Replace the value bound to `k` (`Map.set` when the key is present). -/
def aupdate (l : List (String × α)) (k : String) (v : α) : List (String × α) :=
  match l with
  | [] => []
  | (k2, v2) :: t => if k2 = k then (k2, v) :: t else (k2, v2) :: aupdate t k v

/-- The state owned by one `generateQueryProvider()` closure: the cache map
and the listeners map. -/
structure QPState (V : Type) where
  map : Store V
  listeners : ListenerMap V

/-- Result of one `fetch` call: resolve with a value, reject with the
`Was not able to fetch query-key` error (retry exhaustion), or exceed the
fuel bound (the code recurses without end). -/
inductive FetchRes (V : Type) where
  | ok (v : V)
  | exhausted
  | diverge
deriving DecidableEq, Repr

/-- The body of `fetch` (lines 56-76 of `src/lib/index.tsx`), fuel-indexed.
Arguments: the query key, the outcome of the n-th `fetchFn()` invocation,
the clock at the staleness check of attempt `a` (`checkNow a`) and inside
`this.set` of attempt `a` (`succNow a`), the TTL
(`opts?.timeoutInSeconds ?? 300`), fuel, the `tries` argument, the current
attempt index, and the cache map.  Returns the result, the number of
`fetchFn()` invocations, and the final cache map.  The recursive call keeps
`tries` unchanged, mirroring the postfix `tries++` in the source. -/
def fetchAux (key : String) (op : Nat → Option V) (checkNow succNow : Nat → Nat)
    (ttl : Nat) : Nat → Nat → Nat → Store V → FetchRes V × Nat × Store V
  | 0, _, _, s => (FetchRes.diverge, 0, s)
  | fuel + 1, tries, a, s =>
    match Store.get s key with
    | some cache =>
      if ((checkNow a : Int) - (cache.insertedAt : Int)) > (ttl : Int) * 1000 then
        if 3 ≤ tries then (FetchRes.exhausted, 0, s)
        else
          match op a with
          | some d => (FetchRes.ok d, 1, Store.setE s key ⟨succNow a, d⟩)
          | none =>
            let r := fetchAux key op checkNow succNow ttl fuel tries (a + 1) s
            (r.1, r.2.1 + 1, r.2.2)
      else (FetchRes.ok cache.data, 0, s)
    | none =>
      if 3 ≤ tries then (FetchRes.exhausted, 0, s)
      else
        match op a with
        | some d => (FetchRes.ok d, 1, Store.setE s key ⟨succNow a, d⟩)
        | none =>
          let r := fetchAux key op checkNow succNow ttl fuel tries (a + 1) s
          (r.1, r.2.1 + 1, r.2.2)

/-- `fetch` at the provider level: the TTL is `opts?.timeoutInSeconds ?? 300`
(`ttlOpt = none` models an omitted option), the attempt index starts at 0,
and the listeners map is untouched (the `fetch` closure never references
`listeners`). -/
def fetch (st : QPState V) (key : String) (op : Nat → Option V)
    (checkNow succNow : Nat → Nat) (ttlOpt : Option Nat) (tries fuel : Nat) :
    FetchRes V × Nat × QPState V :=
  let r := fetchAux key op checkNow succNow (ttlOpt.getD 300) fuel tries 0 st.map
  (r.1, r.2.1, { st with map := r.2.2 })

/-- `get(queryKey)` of the provider. -/
def QPState.get (st : QPState V) (k : String) : Option (Entry V) :=
  Store.get st.map k

/-- `set(queryKey, data)` of the provider: stamps the current time `now`. -/
def QPState.set (st : QPState V) (k : String) (d : V) (now : Nat) : QPState V :=
  { st with map := Store.setE st.map k ⟨now, d⟩ }

/-- `attachListener(queryKey, cb)`: create the array if absent, then push. -/
def attachListener (st : QPState V) (k : String) (cb : Callback V) : QPState V :=
  match alookup st.listeners k with
  | none => { st with listeners := (k, [cb]) :: st.listeners }
  | some arr => { st with listeners := aupdate st.listeners k (arr ++ [cb]) }

/-- Apply the effects of a list of callbacks in order (the synchronous model
of `rest.forEach((cb) => cb("refetch"))`). -/
def applyEffects : List (Callback V) → Store V → Store V
  | [], s => s
  | c :: cs, s => applyEffects cs (c.effect s)

/-- `invalidateCache(queryKey)` (lines 43-54): delete the entry, look up the
listener array; if present, split off the primary, run it, and only when the
map holds the key again run the rest.  Returns the new state and the trace
of listener labels in invocation order; `none` models the TypeError thrown
when the listener array is empty (`primary` is then `undefined`). -/
def invalidateCache (st : QPState V) (key : String) :
    Option (QPState V × List Nat) :=
  let m1 := Store.delete st.map key
  match alookup st.listeners key with
  | none => some ({ st with map := m1 }, [])
  | some [] => none
  | some (primary :: rest) =>
    let m2 := primary.effect m1
    if (Store.get m2 key).isSome then
      some ({ st with map := applyEffects rest m2 },
        primary.id :: rest.map Callback.id)
    else
      some ({ st with map := m2 }, [primary.id])

/-- The staleness test at the head of `fetch`:
`cache == undefined || (Date.now() - cache.insertedAt) / 1000 > timeout`,
with the real-number division comparison written as the equivalent integer
comparison. -/
def staleCheck (cache : Option (Entry V)) (now ttl : Nat) : Bool :=
  match cache with
  | none => true
  | some e => decide (((now : Int) - (e.insertedAt : Int)) > (ttl : Int) * 1000)

/-- One provider operation acting on the cache map, used to state what can
re-create an entry after it has been removed: a `set`, the `map.delete`
performed by `invalidateCache`, or a whole `fetch` call. -/
inductive ProvOp (V : Type) where
  | setV (k : String) (v : V) (now : Nat)
  | deleteK (k : String)
  | fetchK (k : String) (op : Nat → Option V) (checkNow succNow : Nat → Nat)
      (ttlOpt : Option Nat) (tries fuel : Nat)

/-- Effect of one provider operation on the cache map. -/
def applyOp (m : Store V) : ProvOp V → Store V
  | ProvOp.setV k v t => Store.setE m k ⟨t, v⟩
  | ProvOp.deleteK k => Store.delete m k
  | ProvOp.fetchK k op cN sN ttlOpt tries fuel =>
      (fetchAux k op cN sN (ttlOpt.getD 300) fuel tries 0 m).2.2

/-- Effect of a sequence of provider operations, left to right. -/
def applyOps (m : Store V) : List (ProvOp V) → Store V
  | [] => m
  | o :: os => applyOps (applyOp m o) os

/-- The operation is neither a `set` of `key` nor a `fetch` of `key` that
resolves successfully from the map `m`. -/
def opSpares (key : String) (m : Store V) : ProvOp V → Prop
  | ProvOp.setV k _ _ => k ≠ key
  | ProvOp.deleteK _ => True
  | ProvOp.fetchK k op cN sN ttlOpt tries fuel =>
      k ≠ key ∨
        ∀ v, (fetchAux k op cN sN (ttlOpt.getD 300) fuel tries 0 m).1 ≠ FetchRes.ok v

/-- A chain of provider operations, each sparing `key` in the map it runs on. -/
inductive SparesChain (key : String) : Store V → List (ProvOp V) → Prop where
  | nil : SparesChain key m []
  | cons : opSpares key m o → SparesChain key (applyOp m o) os →
      SparesChain key m (o :: os)

/-- Provider states reachable from a fresh `generateQueryProvider()` call
(both maps start empty) by the exported operations. -/
inductive Reachable : QPState V → Prop where
  | init : Reachable ⟨[], []⟩
  | setR (st : QPState V) (k : String) (d : V) (now : Nat) :
      Reachable st → Reachable (QPState.set st k d now)
  | attachR (st : QPState V) (k : String) (cb : Callback V) :
      Reachable st → Reachable (attachListener st k cb)
  | fetchR (st : QPState V) (key : String) (op : Nat → Option V)
      (cN sN : Nat → Nat) (ttlOpt : Option Nat) (tries fuel : Nat) :
      Reachable st → Reachable (fetch st key op cN sN ttlOpt tries fuel).2.2
  | invalidateR (st st2 : QPState V) (k : String) (tr : List Nat) :
      Reachable st → invalidateCache st k = some (st2, tr) → Reachable st2

/-- Every listener array present in the listeners map is non-empty. -/
def listenersWF (st : QPState V) : Prop :=
  ∀ k arr, alookup st.listeners k = some arr → arr ≠ []

namespace Store

theorem get_setE_self (s : Store V) (k : String) (e : Entry V) :
    get (setE s k e) k = some e := by
  simp [setE, get]

theorem get_delete_self (s : Store V) (k : String) :
    get (delete s k) k = none := by
  induction s with
  | nil => rfl
  | cons p t ih =>
    by_cases h : p.1 = k
    · simpa [delete, h] using ih
    · simpa [delete, get, h] using ih

theorem get_delete_ne (s : Store V) (k j : String) (h : k ≠ j) :
    get (delete s k) j = get s j := by
  induction s with
  | nil => rfl
  | cons p t ih =>
    by_cases hp : p.1 = k
    · have hj : p.1 ≠ j := fun hh => h (hp ▸ hh)
      simpa [delete, get, hp, hj, h] using ih
    · by_cases hj : p.1 = j
      · simp [delete, get, hp, hj, Ne.symm h]
      · simpa [delete, get, hp, hj] using ih

theorem get_setE_ne (s : Store V) (k j : String) (e : Entry V) (h : k ≠ j) :
    get (setE s k e) j = get s j := by
  simp [setE, get, h, get_delete_ne s k j h]

end Store

theorem fetchAux_fresh (key : String) (op : Nat → Option V) (cN sN : Nat → Nat)
    (ttl fuel tries a : Nat) (s : Store V) (e : Entry V)
    (hc : Store.get s key = some e)
    (hle : ¬ (((cN a : Int) - (e.insertedAt : Int)) > (ttl : Int) * 1000)) :
    fetchAux key op cN sN ttl (fuel + 1) tries a s = (FetchRes.ok e.data, 0, s) := by
  simp [fetchAux, hc, hle]

theorem fetchAux_stale (key : String) (op : Nat → Option V) (cN sN : Nat → Nat)
    (ttl fuel tries a : Nat) (s : Store V)
    (h : staleCheck (Store.get s key) (cN a) ttl = true) :
    fetchAux key op cN sN ttl (fuel + 1) tries a s =
      if 3 ≤ tries then (FetchRes.exhausted, 0, s)
      else
        match op a with
        | some d => (FetchRes.ok d, 1, Store.setE s key ⟨sN a, d⟩)
        | none =>
          let r := fetchAux key op cN sN ttl fuel tries (a + 1) s
          (r.1, r.2.1 + 1, r.2.2) := by
  cases hc : Store.get s key with
  | none => simp [fetchAux, hc]
  | some e =>
    have hgt : ((cN a : Int) - (e.insertedAt : Int)) > (ttl : Int) * 1000 := by
      simpa [staleCheck, hc] using h
    simp [fetchAux, hc, hgt]

theorem fetchAux_store_cases (key : String) (op : Nat → Option V)
    (cN sN : Nat → Nat) (ttl : Nat) :
    ∀ (fuel tries a : Nat) (s : Store V),
      (fetchAux key op cN sN ttl fuel tries a s).2.2 = s ∨
      ∃ d j, (fetchAux key op cN sN ttl fuel tries a s).1 = FetchRes.ok d ∧
        (fetchAux key op cN sN ttl fuel tries a s).2.2 = Store.setE s key ⟨sN j, d⟩ := by
  intro fuel
  induction fuel with
  | zero => intro tries a s; left; rfl
  | succ n ih =>
    intro tries a s
    by_cases hst : staleCheck (Store.get s key) (cN a) ttl = true
    · rw [fetchAux_stale key op cN sN ttl n tries a s hst]
      by_cases htr : 3 ≤ tries
      · rw [if_pos htr]; left; rfl
      · rw [if_neg htr]
        cases hop : op a with
        | some d => right; exact ⟨d, a, rfl, rfl⟩
        | none =>
          rcases ih tries (a + 1) s with h1 | ⟨d, j, hres, hstore⟩
          · left; simpa using h1
          · right; exact ⟨d, j, by simpa using hres, by simpa using hstore⟩
    · cases hc : Store.get s key with
      | none => exact absurd (by simp [staleCheck, hc]) hst
      | some e =>
        have hle : ¬ (((cN a : Int) - (e.insertedAt : Int)) > (ttl : Int) * 1000) := by
          simpa [staleCheck, hc] using hst
        rw [fetchAux_fresh key op cN sN ttl n tries a s e hc hle]
        left; rfl

theorem fetchAux_store_of_not_ok (key : String) (op : Nat → Option V)
    (cN sN : Nat → Nat) (ttl fuel tries a : Nat) (s : Store V)
    (h : ∀ v, (fetchAux key op cN sN ttl fuel tries a s).1 ≠ FetchRes.ok v) :
    (fetchAux key op cN sN ttl fuel tries a s).2.2 = s := by
  rcases fetchAux_store_cases key op cN sN ttl fuel tries a s with h1 | ⟨d, _, hres, _⟩
  · exact h1
  · exact absurd hres (h d)

theorem fetchAux_get_other (key : String) (op : Nat → Option V)
    (cN sN : Nat → Nat) (ttl fuel tries a : Nat) (s : Store V) (j : String)
    (hne : key ≠ j) :
    Store.get (fetchAux key op cN sN ttl fuel tries a s).2.2 j = Store.get s j := by
  rcases fetchAux_store_cases key op cN sN ttl fuel tries a s with h1 | ⟨d, i, _, hstore⟩
  · rw [h1]
  · rw [hstore, Store.get_setE_ne s key j ⟨sN i, d⟩ hne]

theorem fetchAux_alwaysFail (key : String) (cN sN : Nat → Nat) (ttl : Nat) :
    ∀ (fuel a : Nat) (s : Store V), Store.get s key = none →
      fetchAux key (fun _ => none) cN sN ttl fuel 0 a s = (FetchRes.diverge, fuel, s) := by
  intro fuel
  induction fuel with
  | zero => intro a s _; rfl
  | succ n ih =>
    intro a s h
    rw [fetchAux_stale key (fun _ => none) cN sN ttl n 0 a s (by simp [staleCheck, h])]
    simp [ih (a + 1) s h]

theorem fetchAux_absent_ttl (key : String) (op : Nat → Option V)
    (cN sN : Nat → Nat) (t1 t2 : Nat) :
    ∀ (fuel tries a : Nat) (s : Store V), Store.get s key = none →
      fetchAux key op cN sN t1 fuel tries a s = fetchAux key op cN sN t2 fuel tries a s := by
  intro fuel
  induction fuel with
  | zero => intro tries a s _; rfl
  | succ n ih =>
    intro tries a s h
    rw [fetchAux_stale key op cN sN t1 n tries a s (by simp [staleCheck, h]),
      fetchAux_stale key op cN sN t2 n tries a s (by simp [staleCheck, h])]
    by_cases htr : 3 ≤ tries
    · rw [if_pos htr, if_pos htr]
    · rw [if_neg htr, if_neg htr]
      cases hop : op a with
      | some d => rfl
      | none => rw [ih tries (a + 1) s h]

theorem fetchAux_stale_fail (key : String) (op : Nat → Option V)
    (cN sN : Nat → Nat) (ttl fuel tries a : Nat) (s : Store V)
    (hst : staleCheck (Store.get s key) (cN a) ttl = true)
    (htr : ¬ 3 ≤ tries) (hop : op a = none) :
    fetchAux key op cN sN ttl (fuel + 1) tries a s =
      ((fetchAux key op cN sN ttl fuel tries (a + 1) s).1,
       (fetchAux key op cN sN ttl fuel tries (a + 1) s).2.1 + 1,
       (fetchAux key op cN sN ttl fuel tries (a + 1) s).2.2) := by
  rw [fetchAux_stale key op cN sN ttl fuel tries a s hst, if_neg htr]
  simp [hop]

theorem fetchAux_stale_succ (key : String) (op : Nat → Option V)
    (cN sN : Nat → Nat) (ttl fuel tries a : Nat) (s : Store V) (d : V)
    (hst : staleCheck (Store.get s key) (cN a) ttl = true)
    (htr : ¬ 3 ≤ tries) (hop : op a = some d) :
    fetchAux key op cN sN ttl (fuel + 1) tries a s =
      (FetchRes.ok d, 1, Store.setE s key ⟨sN a, d⟩) := by
  rw [fetchAux_stale key op cN sN ttl fuel tries a s hst, if_neg htr]
  simp [hop]

theorem sparesChain_preserves_absent (key : String) :
    ∀ (ops : List (ProvOp V)) (m : Store V), Store.get m key = none →
      SparesChain key m ops → Store.get (applyOps m ops) key = none := by
  intro ops
  induction ops with
  | nil => intro m h _; exact h
  | cons o os ih =>
    intro m h hchain
    cases hchain with
    | cons hsp htail =>
      refine ih (applyOp m o) ?_ htail
      cases o with
      | setV k v t =>
        have hk : k ≠ key := hsp
        rw [show applyOp m (ProvOp.setV k v t) = Store.setE m k ⟨t, v⟩ from rfl,
          Store.get_setE_ne m k key ⟨t, v⟩ hk]
        exact h
      | deleteK k =>
        by_cases hk : k = key
        · subst hk
          exact Store.get_delete_self m k
        · rw [show applyOp m (ProvOp.deleteK k) = Store.delete m k from rfl,
            Store.get_delete_ne m k key hk]
          exact h
      | fetchK k op cN sN ttlOpt tries fuel =>
        rcases hsp with hk | hnok
        · rw [show applyOp m (ProvOp.fetchK k op cN sN ttlOpt tries fuel) =
              (fetchAux k op cN sN (ttlOpt.getD 300) fuel tries 0 m).2.2 from rfl,
            fetchAux_get_other k op cN sN (ttlOpt.getD 300) fuel tries 0 m key hk]
          exact h
        · rw [show applyOp m (ProvOp.fetchK k op cN sN ttlOpt tries fuel) =
              (fetchAux k op cN sN (ttlOpt.getD 300) fuel tries 0 m).2.2 from rfl,
            fetchAux_store_of_not_ok k op cN sN (ttlOpt.getD 300) fuel tries 0 m hnok]
          exact h

/-- Claim C1: with the default attempt counter `tries = 0` and an operation
that fails on every invocation, `fetch` never reaches the `FetchExhausted`
error: because the recursive call passes `tries` un-incremented (postfix
`tries++`), for every fuel bound the call consumes all of it, invoking the
operation once per unit of fuel — unboundedly many times, not at most 4 —
and producing `diverge` instead of `exhausted`. -/
theorem c1_always_fail_never_exhausts (V : Type) (key : String)
    (cN sN : Nat → Nat) (ttlOpt : Option Nat) (fuel : Nat) :
    fetch (⟨[], []⟩ : QPState V) key (fun _ => none) cN sN ttlOpt 0 fuel =
      (FetchRes.diverge, fuel, (⟨[], []⟩ : QPState V)) := by
  simp [fetch,
    fetchAux_alwaysFail key cN sN (ttlOpt.getD 300) fuel 0 ([] : Store V) rfl]

/-- Claim C2: if the entry for the key is fresh — it exists and
`now - insertedAt < ttl * 1000` at call time — `fetch` returns the stored
value, invokes the operation zero times, and leaves the whole provider
state (cache map and listeners map) unchanged. -/
theorem c2_fresh_returns_cached (V : Type) (st : QPState V) (key : String)
    (op : Nat → Option V) (cN sN : Nat → Nat) (ttlOpt : Option Nat)
    (tries fuel : Nat) (e : Entry V)
    (hc : Store.get st.map key = some e)
    (hfresh : ((cN 0 : Int) - (e.insertedAt : Int)) <
      ((ttlOpt.getD 300 : Nat) : Int) * 1000) :
    fetch st key op cN sN ttlOpt tries (fuel + 1) = (FetchRes.ok e.data, 0, st) := by
  have hle : ¬ (((cN 0 : Int) - (e.insertedAt : Int)) >
      ((ttlOpt.getD 300 : Nat) : Int) * 1000) := lt_asymm hfresh
  simp [fetch, fetchAux_fresh key op cN sN (ttlOpt.getD 300) fuel tries 0 st.map e hc hle]

/-- Witness for C2 at a concrete fresh entry. -/
theorem c2_fresh_returns_cached_witness :
    fetch (⟨[("k", ⟨0, 5⟩)], []⟩ : QPState Nat) "k" (fun _ => none)
      (fun _ => 1000) (fun _ => 1000) none 0 1 =
      (FetchRes.ok 5, 0, (⟨[("k", ⟨0, 5⟩)], []⟩ : QPState Nat)) :=
  c2_fresh_returns_cached Nat ⟨[("k", ⟨0, 5⟩)], []⟩ "k" (fun _ => none)
    (fun _ => 1000) (fun _ => 1000) none 0 0 ⟨0, 5⟩ rfl (by decide)

/-- Claim C3 counterexample: at the exact TTL boundary
(`now - insertedAt = ttl * 1000`, here 300000 ms under the default TTL of
300 s) the code treats the entry as fresh: the claimed condition
`now - insertedAt ≥ ttl * 1000` holds, yet the operation is invoked zero
times (not once) and the cached value is returned. -/
theorem c3_boundary_fresh_counterexample :
    fetch (⟨[("k", ⟨0, 42⟩)], []⟩ : QPState Nat) "k" (fun _ => some 7)
      (fun _ => 300000) (fun _ => 300001) none 0 1 =
      (FetchRes.ok 42, 0, (⟨[("k", ⟨0, 42⟩)], []⟩ : QPState Nat)) ∧
    (300000 : Int) - 0 ≥ (300 : Int) * 1000 := by
  exact ⟨rfl, by decide⟩

/-- Claim C3 amended: the operation is invoked (exactly once per call when
it succeeds, with the default `tries = 0`) precisely when the entry is
absent or `now - insertedAt` is strictly greater than `ttl * 1000`; at the
exact boundary `now - insertedAt = ttl * 1000` the entry still counts as
fresh and the operation is not invoked. -/
theorem c3_stale_strictly_beyond_ttl (V : Type) (st : QPState V) (key : String)
    (op : Nat → Option V) (cN sN : Nat → Nat) (ttlOpt : Option Nat) (fuel : Nat) :
    (∀ v, staleCheck (Store.get st.map key) (cN 0) (ttlOpt.getD 300) = true →
      op 0 = some v →
      fetch st key op cN sN ttlOpt 0 (fuel + 1) =
        (FetchRes.ok v, 1, { st with map := Store.setE st.map key ⟨sN 0, v⟩ })) ∧
    (∀ e, Store.get st.map key = some e →
      ((cN 0 : Int) - (e.insertedAt : Int)) = ((ttlOpt.getD 300 : Nat) : Int) * 1000 →
      fetch st key op cN sN ttlOpt 0 (fuel + 1) = (FetchRes.ok e.data, 0, st)) := by
  constructor
  · intro v hst hop
    simp [fetch, fetchAux_stale_succ key op cN sN (ttlOpt.getD 300) fuel 0 0 st.map v
      hst (by decide) hop]
  · intro e hc heq
    have hle : ¬ (((cN 0 : Int) - (e.insertedAt : Int)) >
        ((ttlOpt.getD 300 : Nat) : Int) * 1000) := by
      rw [heq]
      exact lt_irrefl _
    simp [fetch, fetchAux_fresh key op cN sN (ttlOpt.getD 300) fuel 0 0 st.map e hc hle]

/-- Witness for the amended C3: an absent entry triggers exactly one
operation call, and a boundary-aged entry triggers none. -/
theorem c3_stale_strictly_beyond_ttl_witness :
    fetch (⟨[], []⟩ : QPState Nat) "k" (fun _ => some 7) (fun _ => 0)
      (fun _ => 9) none 0 1 = (FetchRes.ok 7, 1, ⟨[("k", ⟨9, 7⟩)], []⟩) ∧
    fetch (⟨[("k", ⟨0, 42⟩)], []⟩ : QPState Nat) "k" (fun _ => some 7)
      (fun _ => 300000) (fun _ => 0) none 0 1 =
      (FetchRes.ok 42, 0, ⟨[("k", ⟨0, 42⟩)], []⟩) := by
  constructor
  · exact (c3_stale_strictly_beyond_ttl Nat ⟨[], []⟩ "k" (fun _ => some 7)
      (fun _ => 0) (fun _ => 9) none 0).1 7 rfl rfl
  · exact (c3_stale_strictly_beyond_ttl Nat ⟨[("k", ⟨0, 42⟩)], []⟩ "k"
      (fun _ => some 7) (fun _ => 300000) (fun _ => 0) none 0).2 ⟨0, 42⟩ rfl (by decide)

/-- Claim C5 counterexample: `timeoutInSeconds` is the freshness window of
`fetch`, so two calls identical except for it can return different values:
an entry 10 s old is fresh under the default 300 s TTL (cached value 1
returned) but stale under `timeoutInSeconds = 5` (the operation runs and
its value 2 is returned). -/
theorem c5_timeout_changes_result :
    (fetch (⟨[("k", ⟨0, 1⟩)], []⟩ : QPState Nat) "k" (fun _ => some 2)
        (fun _ => 10000) (fun _ => 10001) none 0 1).1 = FetchRes.ok 1 ∧
    (fetch (⟨[("k", ⟨0, 1⟩)], []⟩ : QPState Nat) "k" (fun _ => some 2)
        (fun _ => 10000) (fun _ => 10001) (some 5) 0 1).1 = FetchRes.ok 2 ∧
    FetchRes.ok (1 : Nat) ≠ FetchRes.ok 2 :=
  ⟨rfl, rfl, by decide⟩

/-- Claim C5 amended: `fetch` does depend on `timeoutInSeconds` — it is the
TTL of the freshness check (default 300 s); only when the Store holds no
entry for the key are the result, invocation count and final state
independent of the value of the option. -/
theorem c5_timeout_irrelevant_when_absent (V : Type) (st : QPState V)
    (key : String) (op : Nat → Option V) (cN sN : Nat → Nat)
    (t1 t2 : Option Nat) (tries fuel : Nat)
    (h : Store.get st.map key = none) :
    fetch st key op cN sN t1 tries fuel = fetch st key op cN sN t2 tries fuel := by
  simp [fetch,
    fetchAux_absent_ttl key op cN sN (t1.getD 300) (t2.getD 300) fuel tries 0 st.map h]

/-- Witness for the amended C5 with an absent entry. -/
theorem c5_timeout_irrelevant_when_absent_witness :
    fetch (⟨[], []⟩ : QPState Nat) "k" (fun _ => some 2) (fun _ => 0)
      (fun _ => 1) none 0 1 =
    fetch (⟨[], []⟩ : QPState Nat) "k" (fun _ => some 2) (fun _ => 0)
      (fun _ => 1) (some 5) 0 1 :=
  c5_timeout_irrelevant_when_absent Nat ⟨[], []⟩ "k" (fun _ => some 2)
    (fun _ => 0) (fun _ => 1) none (some 5) 0 1 rfl

/-- Claim C6: whenever a `fetch` call fails with the `FetchExhausted`
error, the provider state is exactly as at the start of the call — no cache
entry written, overwritten or removed for any key, and the listeners map
untouched. -/
theorem c6_exhausted_leaves_state (V : Type) (st : QPState V) (key : String)
    (op : Nat → Option V) (cN sN : Nat → Nat) (ttlOpt : Option Nat)
    (tries fuel : Nat)
    (h : (fetch st key op cN sN ttlOpt tries fuel).1 = FetchRes.exhausted) :
    (fetch st key op cN sN ttlOpt tries fuel).2.2 = st := by
  simp only [fetch] at h ⊢
  have h2 : ∀ v, (fetchAux key op cN sN (ttlOpt.getD 300) fuel tries 0 st.map).1 ≠
      FetchRes.ok v := by
    intro v hv
    rw [hv] at h
    simp at h
  rw [fetchAux_store_of_not_ok key op cN sN (ttlOpt.getD 300) fuel tries 0 st.map h2]

/-- Witness for C6: a call entered with `tries = 3` on an empty store fails
exhausted and changes nothing. -/
theorem c6_exhausted_leaves_state_witness :
    (fetch (⟨[], []⟩ : QPState Nat) "k" (fun _ => some 2) (fun _ => 0)
      (fun _ => 1) none 3 1).2.2 = (⟨[], []⟩ : QPState Nat) :=
  c6_exhausted_leaves_state Nat ⟨[], []⟩ "k" (fun _ => some 2) (fun _ => 0)
    (fun _ => 1) none 3 1 rfl

/-- Claim C7: an operation that fails on its first two invocations and
succeeds on the third, run by `fetch` with the default attempt counter on
an entry that is absent or stale at each check, yields the third
value of the third invocation after exactly three operation calls, and leaves an entry
for the key holding that value stamped with the clock of the successful
attempt; the listeners map is unchanged. -/
theorem c7_two_failures_then_success (V : Type) (st : QPState V) (key : String)
    (op : Nat → Option V) (cN sN : Nat → Nat) (ttlOpt : Option Nat)
    (fuel : Nat) (v : V)
    (h0 : op 0 = none) (h1 : op 1 = none) (h2 : op 2 = some v)
    (hst : ∀ a, a < 3 →
      staleCheck (Store.get st.map key) (cN a) (ttlOpt.getD 300) = true) :
    fetch st key op cN sN ttlOpt 0 (fuel + 3) =
      (FetchRes.ok v, 3, { st with map := Store.setE st.map key ⟨sN 2, v⟩ }) := by
  simp only [fetch]
  rw [show fuel + 3 = (fuel + 2) + 1 by omega,
    fetchAux_stale_fail key op cN sN (ttlOpt.getD 300) (fuel + 2) 0 0 st.map
      (hst 0 (by decide)) (by decide) h0]
  rw [show fuel + 2 = (fuel + 1) + 1 by omega,
    fetchAux_stale_fail key op cN sN (ttlOpt.getD 300) (fuel + 1) 0 1 st.map
      (hst 1 (by decide)) (by decide) h1]
  rw [fetchAux_stale_succ key op cN sN (ttlOpt.getD 300) fuel 0 2 st.map v
    (hst 2 (by decide)) (by decide) h2]

/-- Witness for C7: a concrete operation failing twice then returning 7. -/
theorem c7_two_failures_then_success_witness :
    fetch (⟨[], []⟩ : QPState Nat) "k" (fun n => if n = 2 then some 7 else none)
      (fun _ => 0) (fun _ => 50) none 0 3 =
      (FetchRes.ok 7, 3, ⟨[("k", ⟨50, 7⟩)], []⟩) :=
  c7_two_failures_then_success Nat ⟨[], []⟩ "k"
    (fun n => if n = 2 then some 7 else none) (fun _ => 0) (fun _ => 50)
    none 0 7 rfl rfl rfl (fun _ _ => rfl)

/-- Claim C9: when the public `tries` argument is already at least 3,
`fetch` on an absent or stale entry fails with the `FetchExhausted` error
at once — zero operation invocations, state untouched — while on a fresh
entry it returns the cached value regardless of `tries`. -/
theorem c9_preloaded_tries (V : Type) (st : QPState V) (key : String)
    (op : Nat → Option V) (cN sN : Nat → Nat) (ttlOpt : Option Nat)
    (tries fuel : Nat) (htr : 3 ≤ tries) :
    (staleCheck (Store.get st.map key) (cN 0) (ttlOpt.getD 300) = true →
      fetch st key op cN sN ttlOpt tries (fuel + 1) =
        (FetchRes.exhausted, 0, st)) ∧
    (∀ e, Store.get st.map key = some e →
      ¬ (((cN 0 : Int) - (e.insertedAt : Int)) >
          ((ttlOpt.getD 300 : Nat) : Int) * 1000) →
      fetch st key op cN sN ttlOpt tries (fuel + 1) = (FetchRes.ok e.data, 0, st)) := by
  constructor
  · intro hst
    simp [fetch,
      fetchAux_stale key op cN sN (ttlOpt.getD 300) fuel tries 0 st.map hst, htr]
  · intro e hc hle
    simp [fetch,
      fetchAux_fresh key op cN sN (ttlOpt.getD 300) fuel tries 0 st.map e hc hle]

/-- Witness for C9: with `tries = 3`, an empty store gives an immediate
exhaustion and a fresh entry still serves the cached value. -/
theorem c9_preloaded_tries_witness :
    fetch (⟨[], []⟩ : QPState Nat) "k" (fun _ => some 2) (fun _ => 0)
      (fun _ => 1) none 3 1 = (FetchRes.exhausted, 0, ⟨[], []⟩) ∧
    fetch (⟨[("k", ⟨0, 5⟩)], []⟩ : QPState Nat) "k" (fun _ => some 2)
      (fun _ => 0) (fun _ => 1) none 3 1 =
      (FetchRes.ok 5, 0, ⟨[("k", ⟨0, 5⟩)], []⟩) := by
  constructor
  · exact (c9_preloaded_tries Nat ⟨[], []⟩ "k" (fun _ => some 2) (fun _ => 0)
      (fun _ => 1) none 3 0 (by decide)).1 rfl
  · exact (c9_preloaded_tries Nat ⟨[("k", ⟨0, 5⟩)], []⟩ "k" (fun _ => some 2)
      (fun _ => 0) (fun _ => 1) none 3 0 (by decide)).2 ⟨0, 5⟩ rfl (by decide)

/-- Claim C4: with listeners `primary :: rest` registered for the key,
`invalidateCache` first invokes the primary with `refetch` and awaits it;
the listeners in `rest` are then each invoked (in registration order, on
the state the primary left) precisely when the map holds an entry for the
key after the primary resolves, and are never invoked otherwise. -/
theorem c4_primary_before_secondary (V : Type) (st : QPState V) (key : String)
    (primary : Callback V) (rest : List (Callback V))
    (h : alookup st.listeners key = some (primary :: rest)) :
    ∃ st2 trace, invalidateCache st key = some (st2, trace) ∧
      trace.head? = some primary.id ∧
      ((Store.get (primary.effect (Store.delete st.map key)) key).isSome = true →
        trace = primary.id :: rest.map Callback.id ∧
        st2 = { st with
          map := applyEffects rest (primary.effect (Store.delete st.map key)) }) ∧
      ((Store.get (primary.effect (Store.delete st.map key)) key).isSome = false →
        trace = [primary.id] ∧
        st2 = { st with map := primary.effect (Store.delete st.map key) }) := by
  by_cases hk : (Store.get (primary.effect (Store.delete st.map key)) key).isSome
  · refine ⟨{ st with
        map := applyEffects rest (primary.effect (Store.delete st.map key)) },
      primary.id :: rest.map Callback.id, ?_, rfl, fun _ => ⟨rfl, rfl⟩, fun hf => ?_⟩
    · simp [invalidateCache, h, hk]
    · rw [hk] at hf
      cases hf
  · refine ⟨{ st with map := primary.effect (Store.delete st.map key) },
      [primary.id], ?_, rfl, fun ht => absurd ht hk, fun _ => ⟨rfl, rfl⟩⟩
    simp [invalidateCache, h, hk]

/-- Witness for C4 at a concrete state: primary listener 1 repopulates the
key, so secondary listener 2 is notified after it. -/
theorem c4_primary_before_secondary_witness :
    ∃ st2 trace,
      invalidateCache
        (⟨[], [("k", [⟨1, fun m => Store.setE m "k" ⟨5, 9⟩⟩, ⟨2, fun m => m⟩])]⟩ :
          QPState Nat) "k" = some (st2, trace) ∧
      trace.head? = some 1 := by
  obtain ⟨st2, trace, h1, h2, -, -⟩ :=
    c4_primary_before_secondary Nat
      ⟨[], [("k", [⟨1, fun m => Store.setE m "k" ⟨5, 9⟩⟩, ⟨2, fun m => m⟩])]⟩ "k"
      ⟨1, fun m => Store.setE m "k" ⟨5, 9⟩⟩ [⟨2, fun m => m⟩] rfl
  exact ⟨st2, trace, h1, h2⟩

/-- Claim C8: the removal `invalidateCache` performs leaves no entry for
the key — `get` returns `none` right after the `map.delete` (in particular,
with no listeners registered, `invalidateCache` completes and the resulting
state has no entry) — and the entry stays absent under any chain of
provider operations none of which `set`s the key or is a `fetch` of the key
that resolves successfully. -/
theorem c8_absent_until_rewritten (V : Type) (st : QPState V) (key : String) :
    Store.get (Store.delete st.map key) key = none ∧
    (alookup st.listeners key = none →
      ∃ st2, invalidateCache st key = some (st2, []) ∧ QPState.get st2 key = none) ∧
    (∀ ops : List (ProvOp V), SparesChain key (Store.delete st.map key) ops →
      Store.get (applyOps (Store.delete st.map key) ops) key = none) := by
  refine ⟨Store.get_delete_self st.map key, ?_, ?_⟩
  · intro h
    refine ⟨{ st with map := Store.delete st.map key }, ?_, ?_⟩
    · simp [invalidateCache, h]
    · exact Store.get_delete_self st.map key
  · intro ops hchain
    exact sparesChain_preserves_absent key ops (Store.delete st.map key)
      (Store.get_delete_self st.map key) hchain

/-- Witness for C8: invalidating the only entry leaves the key absent, and
a later `set` of a different key keeps it absent. -/
theorem c8_absent_until_rewritten_witness :
    Store.get (Store.delete ([("k", ⟨0, 3⟩)] : Store Nat) "k") "k" = none ∧
    (∃ st2, invalidateCache (⟨[("k", ⟨0, 3⟩)], []⟩ : QPState Nat) "k" =
      some (st2, []) ∧ QPState.get st2 "k" = none) ∧
    Store.get (applyOps (Store.delete ([("k", ⟨0, 3⟩)] : Store Nat) "k")
      [ProvOp.setV "j" 5 10]) "k" = none := by
  obtain ⟨h1, h2, h3⟩ := c8_absent_until_rewritten Nat ⟨[("k", ⟨0, 3⟩)], []⟩ "k"
  exact ⟨h1, h2 rfl, h3 [ProvOp.setV "j" 5 10]
    (SparesChain.cons (show ("j" : String) ≠ "k" by decide) SparesChain.nil)⟩

theorem alookup_aupdate_cases (l : List (String × α)) (k j : String) (v w : α)
    (h : alookup (aupdate l k v) j = some w) : w = v ∨ alookup l j = some w := by
  induction l with
  | nil => exact absurd h (by simp [aupdate, alookup])
  | cons p t ih =>
    obtain ⟨k2, v2⟩ := p
    simp only [aupdate] at h
    by_cases hk : k2 = k
    · rw [if_pos hk] at h
      simp only [alookup] at h
      by_cases hj : k2 = j
      · rw [if_pos hj] at h
        left
        exact (Option.some.inj h).symm
      · rw [if_neg hj] at h
        right
        simp only [alookup, if_neg hj]
        exact h
    · rw [if_neg hk] at h
      simp only [alookup] at h
      by_cases hj : k2 = j
      · rw [if_pos hj] at h
        right
        simp only [alookup, if_pos hj]
        exact h
      · rw [if_neg hj] at h
        rcases ih h with h1 | h2
        · exact Or.inl h1
        · right
          simp only [alookup, if_neg hj]
          exact h2

theorem attachListener_listeners_new (st : QPState V) (k : String)
    (cb : Callback V) (h : alookup st.listeners k = none) :
    (attachListener st k cb).listeners = (k, [cb]) :: st.listeners := by
  simp [attachListener, h]

theorem attachListener_listeners_push (st : QPState V) (k : String)
    (cb : Callback V) (arr : List (Callback V))
    (h : alookup st.listeners k = some arr) :
    (attachListener st k cb).listeners = aupdate st.listeners k (arr ++ [cb]) := by
  simp [attachListener, h]

theorem listenersWF_attach (st : QPState V) (k : String) (cb : Callback V)
    (h : listenersWF st) : listenersWF (attachListener st k cb) := by
  intro j arr harr
  cases hl : alookup st.listeners k with
  | none =>
    rw [attachListener_listeners_new st k cb hl] at harr
    by_cases hkj : k = j
    · subst hkj
      have : some [cb] = some arr := by simpa [alookup] using harr
      intro hnil
      rw [hnil] at this
      simp at this
    · exact h j arr (by simpa [alookup, hkj] using harr)
  | some arr0 =>
    rw [attachListener_listeners_push st k cb arr0 hl] at harr
    rcases alookup_aupdate_cases st.listeners k j (arr0 ++ [cb]) arr harr with heq | hold
    · rw [heq]
      simp
    · exact h j arr hold

theorem invalidateCache_keeps_listeners (st : QPState V) (k : String)
    (st2 : QPState V) (tr : List Nat)
    (h : invalidateCache st k = some (st2, tr)) : st2.listeners = st.listeners := by
  cases hl : alookup st.listeners k with
  | none =>
    simp only [invalidateCache, hl] at h
    obtain ⟨h1, -⟩ := Prod.mk.injEq .. ▸ Option.some.injEq .. ▸ h
    · rw [← h1]
  | some arr =>
    cases arr with
    | nil =>
      simp [invalidateCache, hl] at h
    | cons primary rest =>
      by_cases hk :
          (Store.get (primary.effect (Store.delete st.map k)) k).isSome
      · simp only [invalidateCache, hl, hk, if_true] at h
        obtain ⟨h1, -⟩ := Prod.mk.injEq .. ▸ Option.some.injEq .. ▸ h
        · rw [← h1]
      · simp only [invalidateCache, hl, hk, if_false] at h
        obtain ⟨h1, -⟩ := Prod.mk.injEq .. ▸ Option.some.injEq .. ▸ h
        · rw [← h1]

theorem reachable_listenersWF (st : QPState V) (h : Reachable st) :
    listenersWF st := by
  induction h with
  | init =>
    intro k arr harr
    exact absurd harr (by simp [alookup])
  | setR st k d now hst ih => exact ih
  | attachR st k cb hst ih => exact listenersWF_attach st k cb ih
  | fetchR st key op cN sN ttlOpt tries fuel hst ih => exact ih
  | invalidateR st st2 k tr hst hinv ih =>
    intro j arr ha
    rw [invalidateCache_keeps_listeners st k st2 tr hinv] at ha
    exact ih j arr ha

/-- Claim C10: in every state reachable from a fresh provider, each
listener array present in the listeners map is non-empty (`attachListener`
creates arrays with one element and only ever appends, and nothing removes
elements), so `invalidateCache` always finds a defined primary callback and
never crashes calling `undefined`. -/
theorem c10_listener_arrays_nonempty (V : Type) (st : QPState V)
    (h : Reachable st) :
    listenersWF st ∧ ∀ k, invalidateCache st k ≠ none := by
  have hwf := reachable_listenersWF st h
  refine ⟨hwf, fun k hcrash => ?_⟩
  cases hl : alookup st.listeners k with
  | none => simp [invalidateCache, hl] at hcrash
  | some arr =>
    cases arr with
    | nil => exact hwf k [] hl rfl
    | cons primary rest =>
      by_cases hk :
          (Store.get (primary.effect (Store.delete st.map k)) k).isSome
      · simp [invalidateCache, hl, hk] at hcrash
      · simp [invalidateCache, hl, hk] at hcrash

/-- Witness for C10 on the reachable state obtained by attaching one
listener to a fresh provider. -/
theorem c10_listener_arrays_nonempty_witness :
    listenersWF (attachListener (⟨[], []⟩ : QPState Nat) "k" ⟨1, fun m => m⟩) ∧
    ∀ k, invalidateCache
      (attachListener (⟨[], []⟩ : QPState Nat) "k" ⟨1, fun m => m⟩) k ≠ none :=
  c10_listener_arrays_nonempty Nat
    (attachListener (⟨[], []⟩ : QPState Nat) "k" ⟨1, fun m => m⟩)
    (Reachable.attachR ⟨[], []⟩ "k" ⟨1, fun m => m⟩ Reachable.init)
